import Mathlib

/-!
# Verification of pmars-ts core algorithms

Shallow embedding of the pmars-ts sources (a TypeScript port of pMARS, the
portable Memory Array Redcode Simulator) together with proofs and refutations
of the specification claims about them.

Conventions used throughout the embedding:
* JavaScript numbers holding integer values are modeled as `Int` (or `Nat`
  where the source value is a count or an index that is never negative).
* The JavaScript `%` operator is truncated remainder, modeled as `Int.tmod`;
  `Math.floor(a / b)` is floored division, modeled as `Int.fdiv`.
* Mutable arrays indexed by integers are modeled either as `Array` (where
  claims are settled by concrete evaluation) or as total functions `Nat → α`
  updated pointwise (where claims are settled by symbolic proof).
* Event emission (`emitCoreAccess`, listener callbacks) carries no semantic
  state relevant to any claim and is omitted from the embedding.
-/

namespace PMarsTS

/-- Embeds `addMod` from `src/utils/modular-arithmetic.ts`: assumes `a, b ∈ [0, m)`. -/
def addMod (a b m : Int) : Int :=
  if a + b ≥ m then a + b - m else a + b

/-- Embeds `subMod` from `src/utils/modular-arithmetic.ts`: assumes `a, b ∈ [0, m)`. -/
def subMod (a b m : Int) : Int :=
  if a - b < 0 then a - b + m else a - b

/-- Embeds `normalize` from `src/utils/modular-arithmetic.ts`: JS `value % m` is
truncated remainder, then a negative remainder is shifted into `[0, m)`. -/
def normalize (value m : Int) : Int :=
  let v := Int.tmod value m
  if v < 0 then v + m else v

/-- Embeds `mulMod` from `src/utils/modular-arithmetic.ts`: both the fast path and the
BigInt fallback compute the exact product reduced modulo `m` (the guard only
avoids floating-point precision loss), so the embedding is `(a * b) % m` with
JS truncated remainder. -/
def mulMod (a b m : Int) : Int :=
  Int.tmod (a * b) m

/-- Embeds `rng` from `src/utils/rng.ts` (pmars Lehmer RNG, Park-Miller minimal
standard): `temp = 16807 * (seed % 127773) - 2836 * Math.floor(seed / 127773);
if (temp < 0) temp += 2147483647`. -/
def rng (seed : Int) : Int :=
  let temp := 16807 * Int.tmod seed 127773 - 2836 * Int.fdiv seed 127773
  if temp < 0 then temp + 2147483647 else temp

/-- C9: For every seed `s ∈ [1, 2^31 - 2]`, `rng s` equals exactly
`16807 * (s mod 127773) - 2836 * ⌊s / 127773⌋`, plus `2^31 - 1` if that
quantity is negative, and the result again lies in `[1, 2^31 - 2]`. -/
theorem c9_rng_lehmer (s : Int) (h1 : 1 ≤ s) (h2 : s ≤ 2 ^ 31 - 2) :
    rng s = (if 16807 * (s % 127773) - 2836 * (s / 127773) < 0 then
        16807 * (s % 127773) - 2836 * (s / 127773) + (2 ^ 31 - 1)
      else 16807 * (s % 127773) - 2836 * (s / 127773)) ∧
    1 ≤ rng s ∧ rng s ≤ 2 ^ 31 - 2 := by
  have hs0 : (0 : Int) ≤ s := by omega
  have h2' : s ≤ 2147483646 := by
    norm_num at h2
    exact h2
  have htm : Int.tmod s 127773 = s % 127773 := Int.tmod_eq_emod hs0 (by norm_num)
  have hfd : Int.fdiv s 127773 = s / 127773 := Int.fdiv_eq_ediv s (by norm_num)
  have hqr : 127773 * (s / 127773) + s % 127773 = s := Int.ediv_add_emod s 127773
  have hr0 : 0 ≤ s % 127773 := Int.emod_nonneg s (by norm_num)
  have hr1 : s % 127773 < 127773 := Int.emod_lt_of_pos s (by norm_num)
  have hq0 : 0 ≤ s / 127773 := Int.ediv_nonneg hs0 (by norm_num)
  have hform : rng s = if 16807 * (s % 127773) - 2836 * (s / 127773) < 0 then
      16807 * (s % 127773) - 2836 * (s / 127773) + 2147483647
    else 16807 * (s % 127773) - 2836 * (s / 127773) := by
    rw [rng, htm, hfd]
  -- The Schrage quantity is never a multiple of 2^31 - 1 for s in range, in
  -- particular it is nonzero: it is congruent to 16807 * s, and 16807 is
  -- invertible modulo 2^31 - 1 (inverse 1407677000).
  have hne : 16807 * (s % 127773) - 2836 * (s / 127773) ≠ 0 := by
    intro h0
    have hdvd : (2147483647 : Int) ∣ 16807 * s := ⟨s / 127773, by omega⟩
    have hmul : (2147483647 : Int) ∣ 1407677000 * (16807 * s) :=
      Dvd.dvd.mul_left hdvd _
    have h3 : 1407677000 * (16807 * s) = 2147483647 * (11017 * s) + s := by ring
    rw [h3] at hmul
    have h4 : (2147483647 : Int) ∣ s :=
      (Int.dvd_add_right ⟨11017 * s, rfl⟩).mp hmul
    have h5 := Int.le_of_dvd (by omega) h4
    omega
  refine ⟨by rw [hform]; norm_num, ?_, ?_⟩
  · rw [hform]
    split <;> omega
  · rw [hform, show ((2 : Int) ^ 31 - 2) = 2147483646 from by norm_num]
    split <;> omega

/-- Witness for C9 at `s = 1`: `rng 1 = 16807`. -/
theorem c9_rng_lehmer_witness :
    (1 : Int) ≤ 1 ∧ (1 : Int) ≤ 2 ^ 31 - 2 ∧
      (rng 1 = (if 16807 * ((1 : Int) % 127773) - 2836 * ((1 : Int) / 127773) < 0 then
          16807 * ((1 : Int) % 127773) - 2836 * ((1 : Int) / 127773) + (2 ^ 31 - 1)
        else 16807 * ((1 : Int) % 127773) - 2836 * ((1 : Int) / 127773)) ∧
       1 ≤ rng 1 ∧ rng 1 ≤ 2 ^ 31 - 2) :=
  ⟨le_refl 1, by norm_num, c9_rng_lehmer 1 (le_refl 1) (by norm_num)⟩

/-! ## Warrior positioning (`src/simulator/positioning.ts`) -/

/-- Embeds `RETRIES1` from `src/simulator/positioning.ts`. -/
def RETRIES1 : Nat := 20

/-- Embeds `RETRIES2` from `src/simulator/positioning.ts`. -/
def RETRIES2 : Nat := 4

/-- The overlap scan inside `posit` (`positioning.ts` lines 50-60): the first
index `i ∈ [1, pos)` whose absolute distance to `positions[pos]` is below
`separation`, if any. -/
def findOverlap (positions : Array Int) (pos : Nat) (separation : Int) :
    Option Nat := Id.run do
  for i in [1:pos] do
    let mut diff := positions[pos]! - positions[i]!
    if diff < 0 then diff := -diff
    if diff < separation then return some i
  return none

/-- The `do … while (pos < warriorCount)` loop of `posit` (`positioning.ts`
lines 46-74), modeled with explicit fuel because the source loop has no static
bound (it terminates with probability 1; 128 iterations suffice for every
input evaluated in this file). The `Bool` in the result is the source's
`success` field: the source returns `success: true` on the `retries2 === 0`
path (commented `// exceeded`) and `success: false` after placing all
warriors. -/
def positLoop (fuel : Nat) (warriorCount : Nat) (coreSize separation : Int)
    (seed : Int) (positions : Array Int) (pos retries1 retries2 : Nat) :
    Option (Bool × Array Int × Int) :=
  match fuel with
  | 0 => none
  | fuel + 1 =>
    let seed := rng seed
    let positions :=
      positions.set! pos (Int.tmod seed (coreSize - 2 * separation + 1) + separation)
    match findOverlap positions pos separation with
    | none =>
      if pos + 1 < warriorCount then
        positLoop fuel warriorCount coreSize separation seed positions
          (pos + 1) retries1 retries2
      else
        some (false, positions, seed)
    | some overlapIdx =>
      if retries2 = 0 then
        some (true, positions, seed)
      else if retries1 = 0 then
        if overlapIdx < warriorCount then
          positLoop fuel warriorCount coreSize separation seed positions
            overlapIdx RETRIES1 (retries2 - 1)
        else
          some (false, positions, seed)
      else
        if pos < warriorCount then
          positLoop fuel warriorCount coreSize separation seed positions
            pos (retries1 - 1) retries2
        else
          some (false, positions, seed)

/-- Embeds `posit` (`positioning.ts` lines 35-77): starts the placement loop at
`pos = 1` with full retry budgets. -/
def posit (fuel : Nat) (warriorCount : Nat) (coreSize separation seed : Int)
    (positions : Array Int) : Option (Bool × Array Int × Int) :=
  positLoop fuel warriorCount coreSize separation seed positions 1 RETRIES1 RETRIES2

/-- The inner insertion loop of `npos` (`positioning.ts` lines 91-96):
`for (j = i - 1; j > 0; j--) { if (temp > positions[j]) break;
positions[j + 1] = positions[j]; } positions[j + 1] = temp;`, as a recursion
on the loop counter `j`. -/
def nposInsert (positions : Array Int) (temp : Int) : Nat → Array Int
  | 0 => positions.set! 1 temp
  | j + 1 =>
    if temp > positions[j + 1]! then
      positions.set! (j + 2) temp
    else
      nposInsert (positions.set! (j + 2) positions[j + 1]!) temp j

/-- Embeds `npos` (`positioning.ts` lines 79-114): draw `N - 1` offsets into a sorted
list, add cumulative separations, then Fisher-Yates shuffle slots `1..N-1`. -/
def npos (warriorCount : Nat) (coreSize separation : Int) (seed0 : Int)
    (positions0 : Array Int) : Array Int × Int := Id.run do
  let room := coreSize - separation * (warriorCount : Int) + 1
  let mut seed := seed0
  let mut positions := positions0
  for i in [1:warriorCount] do
    seed := rng seed
    let temp := Int.tmod seed room
    positions := nposInsert positions temp (i - 1)
  let mut tempSep := separation
  for i in [1:warriorCount] do
    positions := positions.set! i (positions[i]! + tempSep)
    tempSep := tempSep + separation
  for i in [1:warriorCount] do
    seed := rng seed
    let j := (Int.tmod seed ((warriorCount : Int) - (i : Int))).toNat + i
    let tmp := positions[j]!
    positions := positions.set! j positions[i]!
    positions := positions.set! i tmp
  return (positions, seed)

/-- Embeds `positionWarriors` (`positioning.ts` lines 11-33). For `N ≥ 3` the source
calls `posit` and returns its positions when the returned flag is `true`
(which `posit` produces on the retry-budget-exceeded path), falling through to
`npos` otherwise. `none` only on fuel exhaustion of the `posit` loop. -/
def positionWarriors (fuel : Nat) (warriorCount : Nat)
    (coreSize separation seed : Int) : Option (Array Int × Int) :=
  let positions := Array.mkArray warriorCount 0
  if warriorCount ≤ 1 then
    some (positions, seed)
  else if warriorCount = 2 then
    let range := coreSize + 1 - 2 * separation
    let positions := positions.set! 1 (separation + Int.tmod seed range)
    some (positions, rng seed)
  else
    match posit fuel warriorCount coreSize separation seed positions with
    | none => none
    | some (success, positions', seed') =>
      if success then some (positions', seed')
      else some (npos warriorCount coreSize separation seed' positions')

/-- C1: REFUTED on the code. With `N = 3`, `coreSize = 12`, `separation = 4`
(so `N * separation ≤ coreSize`) and `seed = 4`, `posit` exhausts both retry
budgets after 90 draws and — because its exceeded path returns the flag the
caller treats as success — `positionWarriors` returns the partial posit
placement `[0, 7, 5]` instead of falling back to `npos`. Positions 1 and 2
are at circular distance `min(|7-5|, 12-|7-5|) = 2 < 4 = separation`. -/
theorem c1_positioning_separation_violated :
    positionWarriors 128 3 12 4 4 = some (#[0, 7, 5], 1190326251) ∧
    (3 : Int) * 4 ≤ 12 ∧
    min ((7 : Int) - 5) (12 - (7 - 5)) < 4 :=
  ⟨by decide, by norm_num, by norm_num⟩

/-! ## P-space (`src/simulator/pspace.ts`) -/

/-- The P-space store of `src/simulator/pspace.ts`. -/
structure PSpace where
  space : Array Int
  size : Nat
  lastResult : Int
deriving DecidableEq, Repr

/-- The `PSpace` constructor: cells zeroed, `lastResult = coreSize - 1`. -/
def PSpace.new (size : Nat) (coreSize : Int) : PSpace :=
  ⟨Array.mkArray size 0, size, coreSize - 1⟩

/-- Embeds `PSpace.get`: the index is reduced by JS `%` (truncated remainder); a
reduced index of 0 reads `lastResult`. -/
def PSpace.get (ps : PSpace) (index : Int) : Int :=
  let idx := Int.tmod index (ps.size : Int)
  if idx = 0 then ps.lastResult else ps.space[idx.toNat]!

/-- Embeds `PSpace.set`: a reduced index of 0 writes `lastResult`. -/
def PSpace.set (ps : PSpace) (index value : Int) : PSpace :=
  let idx := Int.tmod index (ps.size : Int)
  if idx = 0 then { ps with lastResult := value }
  else { ps with space := ps.space.set! idx.toNat value }

/-- Embeds `PSpace.clear` (`pspace.ts` lines 1092-1094 of the simulator sources):
the body is exactly `this.space.fill(0)` — the `lastResult` field is not
touched. -/
def PSpace.clear (ps : PSpace) : PSpace :=
  { ps with space := ps.space.map fun _ => 0 }

/-- Embeds `PSpace.clearKeepResult`: also exactly `this.space.fill(0)`. -/
def PSpace.clearKeepResult (ps : PSpace) : PSpace :=
  { ps with space := ps.space.map fun _ => 0 }

/-- Embeds `computePSpaceSize` (`pspace.ts`): `coreSize / d` for the largest
`d ∈ 16..1` dividing `coreSize`, else `coreSize`. -/
def computePSpaceSize (coreSize : Int) : Int := Id.run do
  for k in [0:16] do
    let i : Int := 16 - (k : Int)
    if Int.tmod coreSize i = 0 then return Int.fdiv coreSize i
  return coreSize

/-- C5: REFUTED on the code. After `set 0 42` (which writes `lastResult`),
`clear()` leaves `lastResult` at 42, so `get 0` still returns 42 instead of
the 0 demanded by the claim; `clear` and `clearKeepResult` have identical
bodies (`space.fill(0)`), and only the cell-zeroing half of the claim holds. -/
theorem c5_clear_preserves_lastResult :
    (((PSpace.new 8 16).set 0 42).set 3 99).clear.lastResult = 42 ∧
    (((PSpace.new 8 16).set 0 42).set 3 99).clear.get 0 = 42 ∧
    (((PSpace.new 8 16).set 0 42).set 3 99).clear.get 3 = 0 ∧
    (((PSpace.new 8 16).set 0 42).set 3 99).clearKeepResult.lastResult = 42 ∧
    (((PSpace.new 8 16).set 0 42).set 3 99).clearKeepResult.get 3 = 0 := by
  decide

/-! ## Assembler fragments (`src/assembler/index.ts`) -/

/-- Message severity of `AssemblerMessage.type`. -/
inductive MsgType where
  | ERROR
  | WARNING
  | INFO
deriving DecidableEq, Repr

/-- Embeds `AssemblerMessage` from `src/assembler/index.ts`. -/
structure AsmMessage where
  type : MsgType
  line : Nat
  text : String
deriving DecidableEq, Repr

/-- Instruction-count enforcement at the end of pass 1 of
`Assembler.assemble` (`assembler/index.ts` lines 363-372): zero instructions
appends an ERROR and returns failure immediately; a count above `maxLength`
appends a WARNING (not an ERROR) and assembly continues. The returned flag is
`true` when `assemble` returns early. -/
def checkInstructionCount (finalInstrCount maxLength : Nat)
    (messages : List AsmMessage) : List AsmMessage × Bool :=
  if finalInstrCount = 0 then
    (messages ++ [⟨.ERROR, 0, "No instructions found"⟩], true)
  else if finalInstrCount > maxLength then
    (messages ++ [⟨.WARNING, 0,
      "Warrior has " ++ toString finalInstrCount ++
        " instructions, limit is " ++ toString maxLength⟩], false)
  else
    (messages, false)

/-- The failure test at the end of `assemble` (lines 390-392):
`messages.some(m => m.type === 'ERROR')`. -/
def hasError (messages : List AsmMessage) : Bool :=
  messages.any fun m => m.type == MsgType.ERROR

/-- Outcome of `assemble` as a function of the final instruction count,
`maxLength`, and the other accumulated messages: the triple is
(`success`, `warrior === null`, final message list). -/
def assembleOutcome (finalInstrCount maxLength : Nat)
    (messages : List AsmMessage) : Bool × Bool × List AsmMessage :=
  let (msgs, earlyFail) := checkInstructionCount finalInstrCount maxLength messages
  if earlyFail then (false, true, msgs)
  else if hasError msgs then (false, true, msgs)
  else (true, false, msgs)

/-- C3: REFUTED on the code. With 101 expanded instructions against
`maxLength = 100` and no other diagnostics, `assemble` appends a WARNING
(severity `'WARNING'`, not `'ERROR'`) for the over-length condition and
returns `success = true` with a non-null warrior, contradicting the claimed
ERROR severity and failure result. -/
theorem c3_overlength_is_warning_not_error :
    assembleOutcome 101 100 [] =
      (true, false,
        [⟨MsgType.WARNING, 0, "Warrior has 101 instructions, limit is 100"⟩]) ∧
    hasError (checkInstructionCount 101 100 []).1 = false := by
  decide

/-- The `FOR` count computation of `Assembler.assemble`
(`assembler/index.ts` lines 294-299):
`const count = evalResult.ok ? evalResult.value : 0;` — the evaluated value is
used directly; there is no reduction modulo `2^16` anywhere on this path. -/
def forLoopCount (evalOk : Bool) (evalValue : Int) : Int :=
  if evalOk then evalValue else 0

/-- The FOR expansion loop bound (line 186:
`for (let i = 1; i <= forBuffer.count; i++)`): number of iterations executed
for a given count. -/
def forIterations (count : Int) : Nat :=
  if 1 ≤ count then count.toNat else 0

/-- FOR-block emission (lines 186-217): iteration `i` (1-based) emits the body
lines produced for that iteration (the per-iteration counter binding and `&`
substitution are abstracted as `body i`). -/
def forExpand (count : Int) (body : Nat → List String) : List String :=
  (List.range (forIterations count)).flatMap fun i => body (i + 1)

/-- The length of a FOR expansion of a one-line body is the iteration count. -/
theorem forExpand_singleton_length (n : Nat) (s : String) :
    ((List.range n).flatMap fun _ => [s]).length = n := by
  induction n with
  | zero => rfl
  | succ k ih => rw [List.range_succ]; simp [ih]

/-- C4: REFUTED on the code. For a `FOR` whose count expression evaluates to
`65537 = 1 * 65536 + 1`, the claim (16-bit truncation) demands exactly 1
iteration, but the code runs the expansion loop 65537 times and emits 65537
copies of a one-line body. -/
theorem c4_for_count_not_truncated :
    forIterations (forLoopCount true 65537) = 65537 ∧
    (65537 : Int) % 65536 = 1 ∧
    (forExpand (forLoopCount true 65537) fun _ => ["DAT 0, 0"]).length = 65537 := by
  refine ⟨by decide, by decide, ?_⟩
  have h := forExpand_singleton_length 65537 "DAT 0, 0"
  simpa [forExpand, forIterations, forLoopCount] using h

/-! ## Simulator configuration loading (`src/simulator/index.ts`) -/

/-- The fields of `WarriorData` consulted by `loadWarriors` validation. -/
structure WarriorData where
  pin : Option Int
  startOffset : Int
deriving DecidableEq, Repr, Inhabited

/-- Embeds `SimulatorOptions` from `src/types.ts`. -/
structure SimOptions where
  coreSize : Int
  maxCycles : Int
  maxLength : Int
  maxProcesses : Int
  minSeparation : Int
  readLimit : Int
  writeLimit : Int
  rounds : Int
  pSpaceSize : Int
  warriors : Int
  seed : Option Int
  fixedSeries : Bool
  fixedPosition : Option Int
deriving DecidableEq, Repr

/-- Embeds `DEFAULT_OPTIONS` from `src/types.ts`. -/
def DEFAULT_OPTIONS : SimOptions :=
  ⟨8000, 80000, 100, 8000, 100, 0, 0, 1, 0, 2, none, false, none⟩

/-- The simulator state established by `loadWarriors`. -/
structure LoadedState where
  minSeparation : Int
  pSpaceSize : Int
  pSpaceIndex : Array Nat
  warriorCount : Nat
  initialized : Bool
deriving DecidableEq, Repr

/-- The shared-P-space scan of `loadWarriors` (lines 89-99): for each warrior
with a non-null pin, alias `pSpaceIndex` to the first earlier warrior with the
same pin. -/
def computePSpaceIndices (warriors : Array WarriorData) : Array Nat := Id.run do
  let mut idx : Array Nat := Array.range warriors.size
  for i in [0:warriors.size] do
    match warriors[i]!.pin with
    | none => pure ()
    | some p =>
      let mut found := false
      for j in [0:i] do
        if !found then
          match warriors[j]!.pin with
          | some q =>
            if q = p then
              idx := idx.set! i j
              found := true
          | none => pure ()
  return idx

/-- Embeds `Simulator.loadWarriors` (`simulator/index.ts` lines 69-102). The body
contains no `throw` statement, no check of the warrior count, and no check of
the `fixedSeries` / `fixedPosition` options; the `Except` return type records
that no configuration is ever rejected. `Math.floor(coreSize / N)` is floored
division. -/
def loadWarriors (opts : SimOptions) (warriors : Array WarriorData) :
    Except String LoadedState :=
  let minSep := if opts.minSeparation < opts.maxLength then opts.maxLength
                else opts.minSeparation
  let minSep := if 1 < warriors.size ∧ opts.coreSize < (warriors.size : Int) * minSep
                then Int.fdiv opts.coreSize (warriors.size : Int) else minSep
  let pSpaceSize := if opts.pSpaceSize > 0 then opts.pSpaceSize
                    else computePSpaceSize opts.coreSize
  Except.ok ⟨minSep, pSpaceSize, computePSpaceIndices warriors, warriors.size, true⟩

/-- C2: REFUTED on the code. Loading 37 warriors, and loading warriors with
both `fixedSeries` and `fixedPosition` set, both complete without any
exception: `loadWarriors` performs none of the claimed validation and returns
an initialized state. -/
theorem c2_loadWarriors_never_throws :
    loadWarriors DEFAULT_OPTIONS (Array.mkArray 37 ⟨none, 0⟩) =
      Except.ok ⟨100, 500, Array.range 37, 37, true⟩ ∧
    loadWarriors
        { DEFAULT_OPTIONS with fixedSeries := true, fixedPosition := some 200 }
        (Array.mkArray 2 ⟨none, 0⟩) =
      Except.ok ⟨100, 500, Array.range 2, 2, true⟩ :=
  ⟨rfl, rfl⟩

/-! ## Simulator execution engine (`src/simulator/index.ts`)

The instruction cell stores the packed opcode (modifier in the low 3 bits);
since the packing `(op << 3) + mod` is a bijection on valid values, the
embedding stores the decoded pair directly. Address modes are kept as their
numeric enum values. -/

/-- Embeds `Opcode` enumeration from `src/types.ts` (decoded). -/
inductive Opcode where
  | MOV
  | ADD
  | SUB
  | MUL
  | DIV
  | MOD
  | JMZ
  | JMN
  | DJN
  | CMP
  | SLT
  | SPL
  | DAT
  | JMP
  | SEQ
  | SNE
  | NOP
  | LDP
  | STP
deriving DecidableEq, Repr, Inhabited

/-- Embeds `Modifier` enumeration from `src/types.ts`. -/
inductive Modifier where
  | A
  | B
  | AB
  | BA
  | F
  | X
  | I
deriving DecidableEq, Repr, Inhabited

/-- Embeds `Instruction` from `src/types.ts`, with the packed opcode field decoded. -/
structure Instr where
  opcode : Opcode
  modifier : Modifier
  aMode : Nat
  bMode : Nat
  aValue : Int
  bValue : Int
deriving DecidableEq, Repr, Inhabited

/-- Embeds `INITIAL_INSTRUCTION` from `src/constants.ts`: `DAT.F $0, $0`
(DIRECT mode is enum value 1). -/
def INITIAL_INSTRUCTION : Instr :=
  ⟨.DAT, .F, 1, 1, 0, 0⟩

/-- Embeds `Core` from `src/simulator/core.ts`. -/
structure Core where
  memory : Array Instr
  size : Nat
deriving DecidableEq, Repr

/-- The address fold `((addr % size) + size) % size` used by `Core.get` and
`Core.set` (JS `%` is truncated remainder). -/
def Core.wrap (c : Core) (addr : Int) : Nat :=
  (Int.tmod (Int.tmod addr (c.size : Int) + (c.size : Int)) (c.size : Int)).toNat

/-- Embeds `Core.get`. -/
def Core.get (c : Core) (addr : Int) : Instr :=
  c.memory[c.wrap addr]!

/-- Embeds `Core.set`. -/
def Core.set (c : Core) (addr : Int) (inst : Instr) : Core :=
  { c with memory := c.memory.set! (c.wrap addr) inst }

/-- Embeds `SimWarrior` from `src/simulator/warrior.ts`: the per-round mutable
warrior state consulted by the dispatch and bookkeeping code. The circular
process queue is modeled as a FIFO list (the scheduler keeps its size below
the queue capacity `maxProcesses + 1`, per the source comment); the score
array is modeled as a total function on indices. -/
structure SimWarrior where
  queue : List Int
  tasks : Int
  alive : Bool
  score : Nat → Int
  lastResult : Int
  pSpaceIndex : Nat

/-- Embeds `SimWarrior.pushProcess`: enqueue at the tail. -/
def SimWarrior.pushProcess (w : SimWarrior) (addr : Int) : SimWarrior :=
  { w with queue := w.queue ++ [addr] }

/-- Pointwise update of a function-backed array. -/
def updFn {α : Type} (f : Nat → α) (i : Nat) (v : α) : Nat → α :=
  fun j => if j = i then v else f j

/-- Embeds `Simulator.execMOV` (lines 565-600) — event emission omitted. -/
def execMOV (m : Modifier) (addrA addrB : Int) (AA AVal : Int) (core : Core) :
    Core :=
  let dst := core.get addrB
  let dst' :=
    match m with
    | .A => { dst with aValue := AA }
    | .B => { dst with bValue := AVal }
    | .AB => { dst with bValue := AA }
    | .BA => { dst with aValue := AVal }
    | .F => { dst with aValue := AA, bValue := AVal }
    | .X => { dst with bValue := AA, aValue := AVal }
    | .I =>
      let src := core.get addrA
      { src with aValue := AA, bValue := AVal }
  core.set addrB dst'

/-- Embeds `Simulator.execADD` (lines 602-629). -/
def execADD (m : Modifier) (addrB : Int) (AA AVal AB BVal cs : Int)
    (core : Core) : Core :=
  let dst := core.get addrB
  let dst' :=
    match m with
    | .A => { dst with aValue := addMod AB AA cs }
    | .B => { dst with bValue := addMod BVal AVal cs }
    | .AB => { dst with bValue := addMod BVal AA cs }
    | .BA => { dst with aValue := addMod AB AVal cs }
    | .F | .I => { dst with aValue := addMod AB AA cs, bValue := addMod BVal AVal cs }
    | .X => { dst with bValue := addMod BVal AA cs, aValue := addMod AB AVal cs }
  core.set addrB dst'

/-- Embeds `Simulator.execSUB` (lines 631-658). -/
def execSUB (m : Modifier) (addrB : Int) (AA AVal AB BVal cs : Int)
    (core : Core) : Core :=
  let dst := core.get addrB
  let dst' :=
    match m with
    | .A => { dst with aValue := subMod AB AA cs }
    | .B => { dst with bValue := subMod BVal AVal cs }
    | .AB => { dst with bValue := subMod BVal AA cs }
    | .BA => { dst with aValue := subMod AB AVal cs }
    | .F | .I => { dst with aValue := subMod AB AA cs, bValue := subMod BVal AVal cs }
    | .X => { dst with bValue := subMod BVal AA cs, aValue := subMod AB AVal cs }
  core.set addrB dst'

/-- Embeds `Simulator.execMUL` (lines 660-687). -/
def execMUL (m : Modifier) (addrB : Int) (AA AVal AB BVal cs : Int)
    (core : Core) : Core :=
  let dst := core.get addrB
  let dst' :=
    match m with
    | .A => { dst with aValue := mulMod AB AA cs }
    | .B => { dst with bValue := mulMod BVal AVal cs }
    | .AB => { dst with bValue := mulMod BVal AA cs }
    | .BA => { dst with aValue := mulMod AB AVal cs }
    | .F | .I => { dst with aValue := mulMod AB AA cs, bValue := mulMod BVal AVal cs }
    | .X => { dst with bValue := mulMod BVal AA cs, aValue := mulMod AB AVal cs }
  core.set addrB dst'

/-- Embeds `Simulator.execDIV` (lines 689-739) acting on the destination cell
`dst = core.get(addrB)`; event emission omitted. Returns the updated cell and
the `died` flag. Core field values are non-negative in practice, where the
source's `Math.floor(x / y)` (floored division, `Int.fdiv`) coincides with
truncation toward zero. -/
def execDIV (m : Modifier) (AA AVal AB BVal : Int) (dst : Instr) :
    Instr × Bool :=
  match m with
  | .A =>
    if AA = 0 then (dst, true) else ({ dst with aValue := Int.fdiv AB AA }, false)
  | .B =>
    if AVal = 0 then (dst, true) else ({ dst with bValue := Int.fdiv BVal AVal }, false)
  | .AB =>
    if AA = 0 then (dst, true) else ({ dst with bValue := Int.fdiv BVal AA }, false)
  | .BA =>
    if AVal = 0 then (dst, true) else ({ dst with aValue := Int.fdiv AB AVal }, false)
  | .F | .I =>
    if AA ≠ 0 then
      let dst := { dst with aValue := Int.fdiv AB AA }
      if AVal = 0 then (dst, true)
      else ({ dst with bValue := Int.fdiv BVal AVal }, false)
    else
      if AVal = 0 then (dst, true)
      else ({ dst with bValue := Int.fdiv BVal AVal }, true)
  | .X =>
    if AVal ≠ 0 then
      let dst := { dst with aValue := Int.fdiv AB AVal }
      if AA = 0 then (dst, true)
      else ({ dst with bValue := Int.fdiv BVal AA }, false)
    else
      if AA = 0 then (dst, true)
      else ({ dst with bValue := Int.fdiv BVal AA }, true)

/-- Embeds `Simulator.execMOD` (lines 741-791), analogous to `execDIV` with JS `%`
(truncated remainder, `Int.tmod`). -/
def execMOD (m : Modifier) (AA AVal AB BVal : Int) (dst : Instr) :
    Instr × Bool :=
  match m with
  | .A =>
    if AA = 0 then (dst, true) else ({ dst with aValue := Int.tmod AB AA }, false)
  | .B =>
    if AVal = 0 then (dst, true) else ({ dst with bValue := Int.tmod BVal AVal }, false)
  | .AB =>
    if AA = 0 then (dst, true) else ({ dst with bValue := Int.tmod BVal AA }, false)
  | .BA =>
    if AVal = 0 then (dst, true) else ({ dst with aValue := Int.tmod AB AVal }, false)
  | .F | .I =>
    if AA ≠ 0 then
      let dst := { dst with aValue := Int.tmod AB AA }
      if AVal = 0 then (dst, true)
      else ({ dst with bValue := Int.tmod BVal AVal }, false)
    else
      if AVal = 0 then (dst, true)
      else ({ dst with bValue := Int.tmod BVal AVal }, true)
  | .X =>
    if AVal ≠ 0 then
      let dst := { dst with aValue := Int.tmod AB AVal }
      if AA = 0 then (dst, true)
      else ({ dst with bValue := Int.tmod BVal AA }, false)
    else
      if AA = 0 then (dst, true)
      else ({ dst with bValue := Int.tmod BVal AA }, true)

/-- Embeds `Simulator.checkJMZ` (lines 793-806). -/
def checkJMZ (m : Modifier) (AB BVal : Int) : Bool :=
  match m with
  | .A | .BA => AB == 0
  | .B | .AB => BVal == 0
  | .F | .X | .I => AB == 0 && BVal == 0

/-- Embeds `Simulator.checkJMN` (lines 808-821). -/
def checkJMN (m : Modifier) (AB BVal : Int) : Bool :=
  match m with
  | .A | .BA => AB != 0
  | .B | .AB => BVal != 0
  | .F | .X | .I => AB != 0 || BVal != 0

/-- Embeds `Simulator.execDJN` (lines 823-851): decrement field(s) of
`core[addrB]` with wrap to `cs1 = coreSize - 1`, and report whether the jump
is taken. -/
def execDJN (m : Modifier) (addrB : Int) (AB BVal cs1 : Int) (core : Core) :
    Core × Bool :=
  let dst := core.get addrB
  match m with
  | .A | .BA =>
    let av := dst.aValue - 1
    let av := if av < 0 then cs1 else av
    (core.set addrB { dst with aValue := av }, AB != 1)
  | .B | .AB =>
    let bv := dst.bValue - 1
    let bv := if bv < 0 then cs1 else bv
    (core.set addrB { dst with bValue := bv }, BVal != 1)
  | .F | .I | .X =>
    let bv := dst.bValue - 1
    let bv := if bv < 0 then cs1 else bv
    let av := dst.aValue - 1
    let av := if av < 0 then cs1 else av
    (core.set addrB { dst with aValue := av, bValue := bv },
      !(AB == 1 && BVal == 1))

/-- Embeds `Simulator.checkCMP` (lines 853-874). -/
def checkCMP (m : Modifier) (addrA raddrB : Int) (AA AVal AB BVal : Int)
    (core : Core) : Bool :=
  match m with
  | .A => AB == AA
  | .B => BVal == AVal
  | .AB => BVal == AA
  | .BA => AB == AVal
  | .F => AB == AA && BVal == AVal
  | .X => BVal == AA && AB == AVal
  | .I =>
    let a := core.get addrA
    let b := core.get raddrB
    a.opcode == b.opcode && a.modifier == b.modifier &&
      a.aMode == b.aMode && a.bMode == b.bMode && AA == AB && AVal == BVal

/-- Embeds `Simulator.checkSLT` (lines 876-892). -/
def checkSLT (m : Modifier) (AA AVal AB BVal : Int) : Bool :=
  match m with
  | .A => AA < AB
  | .B => AVal < BVal
  | .AB => AA < BVal
  | .BA => AVal < AB
  | .F | .I => AA < AB && AVal < BVal
  | .X => AA < BVal && AVal < AB

/-- The `pget` helper of `Simulator.execLDP` (lines 898-901): index 0 modulo
the P-space size reads the warrior's `lastResult`. -/
def pget (w : SimWarrior) (ps : PSpace) (index : Int) : Int :=
  if Int.tmod index (ps.size : Int) = 0 then w.lastResult else ps.get index

/-- Embeds `Simulator.execLDP` (lines 894-920). -/
def execLDP (m : Modifier) (addrB : Int) (AA AVal : Int) (w : SimWarrior)
    (ps : PSpace) (core : Core) : Core :=
  let dst := core.get addrB
  let dst' :=
    match m with
    | .A => { dst with aValue := pget w ps AA }
    | .B | .F | .X | .I => { dst with bValue := pget w ps AVal }
    | .AB => { dst with bValue := pget w ps AA }
    | .BA => { dst with aValue := pget w ps AVal }
  core.set addrB dst'

/-- The `pset` helper of `Simulator.execSTP` (lines 925-931): index 0 modulo
the P-space size writes the warrior's `lastResult` (not the P-space's). -/
def pset (w : SimWarrior) (ps : PSpace) (index value : Int) :
    SimWarrior × PSpace :=
  if Int.tmod index (ps.size : Int) = 0 then
    ({ w with lastResult := value }, ps)
  else
    (w, ps.set index value)

/-- Embeds `Simulator.execSTP` (lines 922-949). -/
def execSTP (m : Modifier) (AA AVal AB BVal : Int) (w : SimWarrior)
    (ps : PSpace) : SimWarrior × PSpace :=
  match m with
  | .A => pset w ps AB AA
  | .B | .F | .X | .I => pset w ps BVal AVal
  | .AB => pset w ps BVal AA
  | .BA => pset w ps AB AVal

/-- Result of the dispatch switch of `executeOneCycle`. -/
structure DispatchOut where
  core : Core
  w : SimWarrior
  ps : PSpace
  pushNext : Bool
  nextAddr : Int
  died : Bool

/-- The `switch (opcode)` dispatch of `executeOneCycle` (lines 345-444), over
resolved operands (`addrA`, `addrB`, `raddrB`, `AA_Value = AA`,
`irAValue = AVal`, `AB_Value = AB`, `irBValue = BVal`). `pushNext` starts
`true` and `nextAddr` starts `PC + 1 (mod coreSize)`, as set just before the
switch (lines 347-349); `ps` is the P-space at the executing warrior's
`pSpaceIndex`. -/
def dispatch (op : Opcode) (m : Modifier)
    (progCnt addrA addrB raddrB : Int) (AA AVal AB BVal : Int)
    (coreSize maxProcesses : Int) (core : Core) (w : SimWarrior)
    (ps : PSpace) : DispatchOut :=
  let pushNext := true
  let nextAddr := addMod progCnt 1 coreSize
  match op with
  | .MOV => ⟨execMOV m addrA addrB AA AVal core, w, ps, pushNext, nextAddr, false⟩
  | .ADD => ⟨execADD m addrB AA AVal AB BVal coreSize core, w, ps, pushNext, nextAddr, false⟩
  | .SUB => ⟨execSUB m addrB AA AVal AB BVal coreSize core, w, ps, pushNext, nextAddr, false⟩
  | .MUL => ⟨execMUL m addrB AA AVal AB BVal coreSize core, w, ps, pushNext, nextAddr, false⟩
  | .DIV =>
    let (cell, died) := execDIV m AA AVal AB BVal (core.get addrB)
    ⟨core.set addrB cell, w, ps, pushNext, nextAddr, died⟩
  | .MOD =>
    let (cell, died) := execMOD m AA AVal AB BVal (core.get addrB)
    ⟨core.set addrB cell, w, ps, pushNext, nextAddr, died⟩
  | .JMP => ⟨core, w.pushProcess addrA, ps, false, nextAddr, false⟩
  | .JMZ =>
    if checkJMZ m AB BVal then ⟨core, w.pushProcess addrA, ps, false, nextAddr, false⟩
    else ⟨core, w, ps, pushNext, nextAddr, false⟩
  | .JMN =>
    if checkJMN m AB BVal then ⟨core, w.pushProcess addrA, ps, false, nextAddr, false⟩
    else ⟨core, w, ps, pushNext, nextAddr, false⟩
  | .DJN =>
    let (core', taken) := execDJN m addrB AB BVal (coreSize - 1) core
    if taken then ⟨core', w.pushProcess addrA, ps, false, nextAddr, false⟩
    else ⟨core', w, ps, pushNext, nextAddr, false⟩
  | .CMP | .SEQ =>
    if checkCMP m addrA raddrB AA AVal AB BVal core then
      ⟨core, w, ps, pushNext, addMod progCnt 2 coreSize, false⟩
    else ⟨core, w, ps, pushNext, nextAddr, false⟩
  | .SNE =>
    if !checkCMP m addrA raddrB AA AVal AB BVal core then
      ⟨core, w, ps, pushNext, addMod progCnt 2 coreSize, false⟩
    else ⟨core, w, ps, pushNext, nextAddr, false⟩
  | .SLT =>
    if checkSLT m AA AVal AB BVal then
      ⟨core, w, ps, pushNext, addMod progCnt 2 coreSize, false⟩
    else ⟨core, w, ps, pushNext, nextAddr, false⟩
  | .SPL =>
    let w1 := w.pushProcess nextAddr
    let w2 :=
      if w1.tasks < maxProcesses then
        SimWarrior.pushProcess { w1 with tasks := w1.tasks + 1 } addrA
      else w1
    ⟨core, w2, ps, false, nextAddr, false⟩
  | .DAT => ⟨core, w, ps, pushNext, nextAddr, true⟩
  | .NOP => ⟨core, w, ps, pushNext, nextAddr, false⟩
  | .LDP => ⟨execLDP m addrB AA AVal w ps core, w, ps, pushNext, nextAddr, false⟩
  | .STP =>
    let (w', ps') := execSTP m AA AVal AB BVal w ps
    ⟨core, w', ps', pushNext, nextAddr, false⟩

/-- Scheduler state consulted by the post-dispatch bookkeeping of
`executeOneCycle`: the warrior table, the alive ring, the current index, the
alive count and the remaining-cycle counter. -/
structure SchedState where
  warriors : Nat → SimWarrior
  numWarriors : Nat
  nextWarrior : Nat → Nat
  prevWarrior : Nat → Nat
  currentWarriorIdx : Nat
  warriorsLeft : Int
  cycle : Int

/-- Post-dispatch bookkeeping of `executeOneCycle` (lines 446-486), event
emission omitted. `w` is the warrior object fetched at the top of the cycle
as already mutated by the dispatch; it lives at index `currentWarriorIdx`.
On task death with no tasks left: mark dead, bump
`score[warriorsLeft + N - 2]` (pre-death `warriorsLeft`), apply the cycle
correction `cycle := cycle - 1 - ⌊(cycle - 1) / warriorsLeft⌋` (pre-death
`warriorsLeft`; `Math.floor` of the JS division is `Int.fdiv`), decrement
`warriorsLeft`, unlink from the ring and advance through the old `next`
pointer. The trailing `cycle--` (line 485) is the ordinary per-cycle
decrement executed on every path. -/
def afterDispatch (st : SchedState) (w : SimWarrior) (died pushNext : Bool)
    (nextAddr : Int) : SchedState :=
  let origIdx := st.currentWarriorIdx
  let (st1, w1, pushNext1) :=
    if died then
      let w' := { w with tasks := w.tasks - 1 }
      if w'.tasks ≤ 0 then
        let deadIdx := (st.warriorsLeft + (st.numWarriors : Int) - 2).toNat
        let w'' :=
          { w' with
            alive := false
            score := updFn w'.score deadIdx (w'.score deadIdx + 1) }
        let cycle' := st.cycle - 1 - Int.fdiv (st.cycle - 1) st.warriorsLeft
        let nw1 := updFn st.nextWarrior (st.prevWarrior origIdx) (st.nextWarrior origIdx)
        let pw1 := updFn st.prevWarrior (nw1 origIdx) (st.prevWarrior origIdx)
        ({ st with
            cycle := cycle'
            warriorsLeft := st.warriorsLeft - 1
            nextWarrior := nw1
            prevWarrior := pw1
            currentWarriorIdx := nw1 origIdx }, w'', pushNext)
      else
        (st, w', false)
    else (st, w, pushNext)
  let w2 := if pushNext1 && !died then w1.pushProcess nextAddr else w1
  let st2 := { st1 with warriors := updFn st1.warriors origIdx w2 }
  let st3 :=
    if w2.alive then
      { st2 with currentWarriorIdx := st2.nextWarrior st2.currentWarriorIdx }
    else st2
  { st3 with cycle := st3.cycle - 1 }

/-- The dispatch-and-bookkeeping portion of `executeOneCycle` (lines
179-486): pop the program counter from the current warrior's queue (the
queue is never empty when a warrior is scheduled), dispatch on the decoded
instruction with already-resolved operands (operand resolution, lines
198-343, is taken as input), then apply the post-dispatch bookkeeping. -/
def runCycleDispatch (op : Opcode) (m : Modifier)
    (addrA addrB raddrB : Int) (AA AVal AB BVal : Int)
    (coreSize maxProcesses : Int) (core : Core) (ps : PSpace)
    (st : SchedState) : Core × PSpace × SchedState :=
  let w0 := st.warriors st.currentWarriorIdx
  let progCnt := w0.queue.headD 0
  let w1 := { w0 with queue := w0.queue.tail }
  let out := dispatch op m progCnt addrA addrB raddrB AA AVal AB BVal
    coreSize maxProcesses core w1 ps
  (out.core, out.ps, afterDispatch st out.w out.died out.pushNext out.nextAddr)

/-- The set of divisors actually used by a DIV/MOD at a given modifier, as a
zero test: `A`/`AB` divide by the A-operand's A-field `AA`; `B`/`BA` by its
B-field `AVal`; `F`/`I`/`X` use both. -/
def divisorZero (m : Modifier) (AA AVal : Int) : Bool :=
  match m with
  | .A | .AB => AA == 0
  | .B | .BA => AVal == 0
  | .F | .I | .X => AA == 0 || AVal == 0

/-- C6: for every DIV/MOD, the task dies exactly when some used divisor is
zero, and for `F`/`I`/`X` with exactly one zero divisor the half with the
non-zero divisor is still written to the destination cell (with the quotient
`Int.fdiv` resp. remainder `Int.tmod`, which on the non-negative core values
is truncation toward zero) even though the task dies. -/
theorem c6_div_mod_by_zero (m : Modifier) (AA AVal AB BVal : Int) (dst : Instr) :
    ((execDIV m AA AVal AB BVal dst).2 = divisorZero m AA AVal) ∧
    ((execMOD m AA AVal AB BVal dst).2 = divisorZero m AA AVal) ∧
    ((m = .F ∨ m = .I) → AA ≠ 0 → AVal = 0 →
      execDIV m AA AVal AB BVal dst = ({ dst with aValue := Int.fdiv AB AA }, true) ∧
      execMOD m AA AVal AB BVal dst = ({ dst with aValue := Int.tmod AB AA }, true)) ∧
    ((m = .F ∨ m = .I) → AA = 0 → AVal ≠ 0 →
      execDIV m AA AVal AB BVal dst = ({ dst with bValue := Int.fdiv BVal AVal }, true) ∧
      execMOD m AA AVal AB BVal dst = ({ dst with bValue := Int.tmod BVal AVal }, true)) ∧
    (m = .X → AVal ≠ 0 → AA = 0 →
      execDIV m AA AVal AB BVal dst = ({ dst with aValue := Int.fdiv AB AVal }, true) ∧
      execMOD m AA AVal AB BVal dst = ({ dst with aValue := Int.tmod AB AVal }, true)) ∧
    (m = .X → AVal = 0 → AA ≠ 0 →
      execDIV m AA AVal AB BVal dst = ({ dst with bValue := Int.fdiv BVal AA }, true) ∧
      execMOD m AA AVal AB BVal dst = ({ dst with bValue := Int.tmod BVal AA }, true)) := by
  cases m <;> by_cases h1 : AA = 0 <;> by_cases h2 : AVal = 0 <;>
    simp [execDIV, execMOD, divisorZero, h1, h2]

/-- Witness for C6: `DIV.F` with `AA = 3`, `AVal = 0` on the initial cell
writes the A-quotient and dies; `MOD.X` with `AVal = 0`, `AA = 2` writes the
B-remainder and dies. -/
theorem c6_div_mod_by_zero_witness :
    execDIV Modifier.F 3 0 10 7 INITIAL_INSTRUCTION =
      ({ INITIAL_INSTRUCTION with aValue := Int.fdiv 10 3 }, true) ∧
    execMOD Modifier.X 2 0 10 7 INITIAL_INSTRUCTION =
      ({ INITIAL_INSTRUCTION with bValue := Int.tmod 7 2 }, true) :=
  ⟨((c6_div_mod_by_zero Modifier.F 3 0 10 7 INITIAL_INSTRUCTION).2.2.1
      (Or.inl rfl) (by norm_num) rfl).1,
   ((c6_div_mod_by_zero Modifier.X 2 0 10 7 INITIAL_INSTRUCTION).2.2.2.2.2
      rfl rfl (by norm_num)).2⟩

/-- C7: every SPL execution pushes `PC+1` onto the executing warrior's queue;
a second push (of the resolved A-operand address) together with a task-count
increment happens exactly when the warrior's task count before the
instruction is strictly below `maxProcesses`; in particular at
`tasks = maxProcesses` no new task is created but `PC+1` is still pushed. -/
theorem c7_spl_push (m : Modifier) (addrA addrB raddrB AA AVal AB BVal : Int)
    (coreSize maxProcesses : Int) (core : Core) (ps : PSpace)
    (st : SchedState) (w0 : SimWarrior) (progCnt : Int) (rest : List Int)
    (hw : st.warriors st.currentWarriorIdx = w0)
    (hq : w0.queue = progCnt :: rest) :
    ((runCycleDispatch .SPL m addrA addrB raddrB AA AVal AB BVal coreSize
        maxProcesses core ps st).2.2.warriors st.currentWarriorIdx).queue =
      rest ++ addMod progCnt 1 coreSize ::
        (if w0.tasks < maxProcesses then [addrA] else []) ∧
    ((runCycleDispatch .SPL m addrA addrB raddrB AA AVal AB BVal coreSize
        maxProcesses core ps st).2.2.warriors st.currentWarriorIdx).tasks =
      w0.tasks + (if w0.tasks < maxProcesses then 1 else 0) ∧
    (w0.tasks = maxProcesses →
      ((runCycleDispatch .SPL m addrA addrB raddrB AA AVal AB BVal coreSize
          maxProcesses core ps st).2.2.warriors st.currentWarriorIdx).queue =
        rest ++ [addMod progCnt 1 coreSize] ∧
      ((runCycleDispatch .SPL m addrA addrB raddrB AA AVal AB BVal coreSize
          maxProcesses core ps st).2.2.warriors st.currentWarriorIdx).tasks =
        w0.tasks) := by
  have hw' : ((runCycleDispatch .SPL m addrA addrB raddrB AA AVal AB BVal coreSize
      maxProcesses core ps st).2.2.warriors st.currentWarriorIdx) =
      if w0.tasks < maxProcesses then
        { w0 with queue := rest ++ [addMod progCnt 1 coreSize, addrA], tasks := w0.tasks + 1 }
      else { w0 with queue := rest ++ [addMod progCnt 1 coreSize] } := by
    by_cases h : w0.tasks < maxProcesses <;>
      simp [runCycleDispatch, dispatch, afterDispatch, SimWarrior.pushProcess,
        updFn, hw, hq, h] <;>
      split <;> simp [updFn]
  rw [hw']
  by_cases h : w0.tasks < maxProcesses
  · exact ⟨by simp [h], by simp [h], fun heq => absurd h (by omega)⟩
  · exact ⟨by simp [h], by simp [h], fun heq => ⟨by simp [h], by simp [h]⟩⟩

/-- A concrete warrior at its task limit, for the C7 witness. -/
def wSPL : SimWarrior :=
  ⟨[3], 2, true, fun _ => 0, 7, 0⟩

/-- A concrete 8-cell core for witnesses. -/
def coreW : Core :=
  ⟨Array.mkArray 8 INITIAL_INSTRUCTION, 8⟩

/-- A concrete P-space for witnesses. -/
def psW : PSpace :=
  PSpace.new 4 8

/-- A concrete scheduler state for the C7 witness. -/
def stSPL : SchedState :=
  ⟨fun _ => wSPL, 2, fun j => (j + 1) % 2, fun j => (j + 1) % 2, 0, 2, 10⟩

/-- Witness for C7 at `tasks = maxProcesses = 2`: only `PC+1` is pushed and
the task count stays 2. -/
theorem c7_spl_push_witness :
    wSPL.tasks = 2 ∧
    (((runCycleDispatch .SPL .B 5 6 6 1 1 2 2 8 2 coreW psW
        stSPL).2.2.warriors stSPL.currentWarriorIdx).queue =
      [] ++ [addMod 3 1 8] ∧
     ((runCycleDispatch .SPL .B 5 6 6 1 1 2 2 8 2 coreW psW
        stSPL).2.2.warriors stSPL.currentWarriorIdx).tasks = wSPL.tasks) :=
  ⟨rfl, (c7_spl_push .B 5 6 6 1 1 2 2 8 2 coreW psW stSPL wSPL 3 []
    rfl rfl).2.2 rfl⟩

/-- C8: when the dispatch reports death and the executing warrior's task
count drops to zero, the post-dispatch bookkeeping marks it dead, increments
`score[warriorsLeft + N - 2]` (pre-death `warriorsLeft`, `N = numWarriors`),
applies the cycle correction `cycle := cycle - 1 - ⌊(cycle - 1)/warriorsLeft⌋`
with the pre-death `warriorsLeft` (stated through the trailing per-cycle
decrement of line 485, hence the `+ 1`), decrements `warriorsLeft`, unlinks
the warrior from the alive ring, and advances `currentWarriorIdx` through the
dead warrior's old `next` pointer. -/
theorem c8_warrior_death (st : SchedState) (w : SimWarrior) (pushNext : Bool)
    (nextAddr : Int) (htask : w.tasks ≤ 1) :
    ((afterDispatch st w true pushNext nextAddr).warriors
        st.currentWarriorIdx).alive = false ∧
    ((afterDispatch st w true pushNext nextAddr).warriors
        st.currentWarriorIdx).score
        ((st.warriorsLeft + (st.numWarriors : Int) - 2).toNat) =
      w.score ((st.warriorsLeft + (st.numWarriors : Int) - 2).toNat) + 1 ∧
    (afterDispatch st w true pushNext nextAddr).cycle + 1 =
      st.cycle - 1 - Int.fdiv (st.cycle - 1) st.warriorsLeft ∧
    (afterDispatch st w true pushNext nextAddr).warriorsLeft =
      st.warriorsLeft - 1 ∧
    (afterDispatch st w true pushNext nextAddr).nextWarrior
        (st.prevWarrior st.currentWarriorIdx) =
      st.nextWarrior st.currentWarriorIdx ∧
    (afterDispatch st w true pushNext nextAddr).prevWarrior
        (st.nextWarrior st.currentWarriorIdx) =
      st.prevWarrior st.currentWarriorIdx ∧
    (afterDispatch st w true pushNext nextAddr).currentWarriorIdx =
      st.nextWarrior st.currentWarriorIdx := by
  have hdead : w.tasks - 1 ≤ 0 := by omega
  simp [afterDispatch, updFn, hdead]

/-- A concrete warrior on its last task, for the C8 witness. -/
def wDead : SimWarrior :=
  ⟨[], 1, true, fun _ => 0, 7, 0⟩

/-- A concrete 3-warrior scheduler state for the C8 witness. -/
def stDead : SchedState :=
  ⟨fun _ => wDead, 3, fun j => (j + 1) % 3, fun j => (j + 2) % 3, 1, 3, 100⟩

/-- Witness for C8 on a concrete 3-warrior state. -/
theorem c8_warrior_death_witness :
    ((afterDispatch stDead wDead true false 9).warriors
        stDead.currentWarriorIdx).alive = false ∧
    ((afterDispatch stDead wDead true false 9).warriors
        stDead.currentWarriorIdx).score
        ((stDead.warriorsLeft + (stDead.numWarriors : Int) - 2).toNat) =
      wDead.score ((stDead.warriorsLeft + (stDead.numWarriors : Int) - 2).toNat) + 1 ∧
    (afterDispatch stDead wDead true false 9).cycle + 1 =
      stDead.cycle - 1 - Int.fdiv (stDead.cycle - 1) stDead.warriorsLeft ∧
    (afterDispatch stDead wDead true false 9).warriorsLeft =
      stDead.warriorsLeft - 1 ∧
    (afterDispatch stDead wDead true false 9).nextWarrior
        (stDead.prevWarrior stDead.currentWarriorIdx) =
      stDead.nextWarrior stDead.currentWarriorIdx ∧
    (afterDispatch stDead wDead true false 9).prevWarrior
        (stDead.nextWarrior stDead.currentWarriorIdx) =
      stDead.prevWarrior stDead.currentWarriorIdx ∧
    (afterDispatch stDead wDead true false 9).currentWarriorIdx =
      stDead.nextWarrior stDead.currentWarriorIdx :=
  c8_warrior_death stDead wDead false 9 (by decide)

/-! ## Round termination (`Simulator.step` / `Simulator.endRound`) -/

/-- Round outcome from `src/simulator/index.ts`. -/
inductive Outcome where
  | WIN
  | TIE
deriving DecidableEq, Repr

/-- Embeds `RoundResult` from `src/simulator/index.ts`. -/
structure RoundResult where
  winnerId : Option Nat
  outcome : Outcome
deriving DecidableEq, Repr

/-- Simulator state consulted by `step` and `endRound`: warrior table,
per-warrior P-spaces (indexed through `pSpaceIndex`), the alive count and the
remaining-cycle counter. -/
structure SimSt where
  warriors : Nat → SimWarrior
  numWarriors : Nat
  pSpaces : Nat → PSpace
  warriorsLeft : Int
  cycle : Int

/-- Per-warrior update of the `endRound` loop (lines 492-501): an alive
warrior gets `score[warriorsLeft - 1]++` and `lastResult = warriorsLeft`, a
dead one gets `lastResult = 0`. -/
def endRoundWarrior (warriorsLeft : Int) (w : SimWarrior) : SimWarrior :=
  if w.alive then
    { w with
      score := updFn w.score (warriorsLeft - 1).toNat
        (w.score (warriorsLeft - 1).toNat + 1)
      lastResult := warriorsLeft }
  else { w with lastResult := 0 }

/-- Per-warrior P-space mirroring of the `endRound` loop:
`pSpaces[w.pSpaceIndex].lastResult := warriorsLeft` (alive) or `0` (dead). -/
def endRoundPS (warriorsLeft : Int) (w : SimWarrior) (pss : Nat → PSpace) :
    Nat → PSpace :=
  updFn pss w.pSpaceIndex
    { pss w.pSpaceIndex with
      lastResult := if w.alive then warriorsLeft else 0 }

/-- Embeds `Simulator.endRound` (lines 488-518): update every warrior and its
P-space; the winner is the first alive warrior when `warriorsLeft = 1`,
otherwise the outcome is a TIE. Returns the updated state and the result
(the source mutates in place and returns the result). -/
def endRound (st : SimSt) : SimSt × RoundResult :=
  let warriors' := fun i =>
    if i < st.numWarriors then endRoundWarrior st.warriorsLeft (st.warriors i)
    else st.warriors i
  let pSpaces' := (List.range st.numWarriors).foldl
    (fun acc i => endRoundPS st.warriorsLeft (st.warriors i) acc) st.pSpaces
  let winner :=
    if st.warriorsLeft = 1 then
      (List.range st.numWarriors).find? fun i => (st.warriors i).alive
    else none
  let result : RoundResult :=
    match winner with
    | some i => ⟨some i, .WIN⟩
    | none => ⟨none, .TIE⟩
  ({ st with warriors := warriors', pSpaces := pSpaces' }, result)

/-- Embeds `Simulator.step` (lines 165-176), with the single-cycle executor
(`executeOneCycle`, embedded separately above as dispatch plus bookkeeping)
abstracted as the parameter `execCycle`: if the round is already over
(`cycle ≤ 0` or `warriorsLeft < 2`), `step` immediately returns
`endRound()` — there is no guard making it a no-op. -/
def step (execCycle : SimSt → SimSt) (st : SimSt) : SimSt × Option RoundResult :=
  if st.cycle ≤ 0 ∨ st.warriorsLeft < 2 then
    ((endRound st).1, some (endRound st).2)
  else
    let st1 := execCycle st
    if st1.cycle ≤ 0 ∨ st1.warriorsLeft < 2 then
      ((endRound st1).1, some (endRound st1).2)
    else (st1, none)

/-- Iterates `step` : `k` repeated calls, tracking only the state. -/
def stepIter (execCycle : SimSt → SimSt) : Nat → SimSt → SimSt
  | 0, st => st
  | k + 1, st => stepIter execCycle k (step execCycle st).1

/-- Lemma: `endRoundWarrior` does not change the alive flag. -/
theorem endRoundWarrior_alive (wl : Int) (w : SimWarrior) :
    (endRoundWarrior wl w).alive = w.alive := by
  unfold endRoundWarrior
  split <;> rfl

/-- Lemma: `endRoundWarrior` does not change the P-space index. -/
theorem endRoundWarrior_pSpaceIndex (wl : Int) (w : SimWarrior) :
    (endRoundWarrior wl w).pSpaceIndex = w.pSpaceIndex := by
  unfold endRoundWarrior
  split <;> rfl

/-- Lemma: `endRound` preserves the schedule counters, every alive flag and every
P-space index. -/
theorem endRound_preserves (st : SimSt) :
    (endRound st).1.cycle = st.cycle ∧
    (endRound st).1.warriorsLeft = st.warriorsLeft ∧
    (endRound st).1.numWarriors = st.numWarriors ∧
    (∀ j, ((endRound st).1.warriors j).alive = (st.warriors j).alive) ∧
    (∀ j, ((endRound st).1.warriors j).pSpaceIndex = (st.warriors j).pSpaceIndex) := by
  refine ⟨rfl, rfl, rfl, fun j => ?_, fun j => ?_⟩ <;>
    simp only [endRound] <;> split <;>
    simp [endRoundWarrior_alive, endRoundWarrior_pSpaceIndex]

/-- P-space indices untouched by the `endRound` loop are preserved by the
fold. -/
theorem foldl_endRoundPS_untouched (wl : Int) (ws : Nat → SimWarrior) (p : Nat)
    (l : List Nat) (pss : Nat → PSpace)
    (h : ∀ j ∈ l, (ws j).pSpaceIndex ≠ p) :
    (l.foldl (fun acc i => endRoundPS wl (ws i) acc) pss) p = pss p := by
  induction l generalizing pss with
  | nil => rfl
  | cons j l ih =>
    have hj : (ws j).pSpaceIndex ≠ p := h j (by simp)
    have hrest : ∀ x ∈ l, (ws x).pSpaceIndex ≠ p := fun x hx => h x (by simp [hx])
    simp only [List.foldl_cons]
    rw [ih _ hrest]
    simp [endRoundPS, updFn, Ne.symm hj]

/-- If warrior `i` is the unique warrior in `l` whose P-space index is `p`,
the `endRound` fold leaves `lastResult` at `p` as written for warrior `i`. -/
theorem foldl_endRoundPS_owner (wl : Int) (ws : Nat → SimWarrior) (p i : Nat) :
    ∀ (l : List Nat) (pss : Nat → PSpace), i ∈ l → l.Nodup →
      (∀ j ∈ l, (ws j).pSpaceIndex = p → j = i) → (ws i).pSpaceIndex = p →
      (l.foldl (fun acc j => endRoundPS wl (ws j) acc) pss) p =
        { pss p with lastResult := if (ws i).alive then wl else 0 } := by
  intro l
  induction l with
  | nil => intro pss hmem; cases hmem
  | cons j l ih =>
    intro pss hmem hnd huniq hpi
    rcases List.mem_cons.mp hmem with rfl | hmem'
    · have hrest : ∀ x ∈ l, (ws x).pSpaceIndex ≠ p := by
        intro x hx hpx
        have hxj := huniq x (by simp [hx]) hpx
        subst hxj
        exact (List.nodup_cons.mp hnd).1 hx
      simp only [List.foldl_cons]
      rw [foldl_endRoundPS_untouched wl ws p l _ hrest]
      simp [endRoundPS, updFn, hpi]
    · have hji : j ≠ i := by
        rintro rfl
        exact (List.nodup_cons.mp hnd).1 hmem'
      have hjp : (ws j).pSpaceIndex ≠ p := fun hpj => hji (huniq j (by simp) hpj)
      simp only [List.foldl_cons]
      rw [ih _ hmem' (List.nodup_cons.mp hnd).2
        (fun x hx hpx => huniq x (by simp [hx]) hpx) hpi]
      have hbase : (endRoundPS wl (ws j) pss) p = pss p := by
        simp [endRoundPS, updFn, Ne.symm hjp]
      rw [hbase]

/-- Each terminal `step` adds 1 to an alive warrior's
`score[warriorsLeft - 1]`, so `k` of them add `k`. -/
theorem stepIter_score (f : SimSt → SimSt) (k : Nat) :
    ∀ (st : SimSt) (i : Nat), (st.cycle ≤ 0 ∨ st.warriorsLeft < 2) →
      i < st.numWarriors → (st.warriors i).alive = true →
      ((stepIter f k st).warriors i).score (st.warriorsLeft - 1).toNat =
        (st.warriors i).score (st.warriorsLeft - 1).toNat + k := by
  induction k with
  | zero =>
    intro st i hterm hi halive
    simp [stepIter]
  | succ n ih =>
    intro st i hterm hi halive
    have hstep1 : (step f st).1 = (endRound st).1 := by
      unfold step
      rw [if_pos hterm]
    obtain ⟨hc, hwl, hn, halv, _⟩ := endRound_preserves st
    have hscore : ((endRound st).1.warriors i).score (st.warriorsLeft - 1).toNat =
        (st.warriors i).score (st.warriorsLeft - 1).toNat + 1 := by
      simp only [endRound, if_pos hi]
      simp [endRoundWarrior, halive, updFn]
    have hrec := ih (step f st).1 i (by rw [hstep1, hc, hwl]; exact hterm)
      (by rw [hstep1, hn]; exact hi)
      (by rw [hstep1, halv i]; exact halive)
    rw [hstep1, hwl] at hrec
    rw [hscore] at hrec
    rw [show stepIter f (n + 1) st = stepIter f n (step f st).1 from rfl, hstep1,
      hrec]
    push_cast
    ring

/-- C10: once a round has ended (`cycle ≤ 0` or `warriorsLeft < 2`), every
further `step()` call runs `endRound` again instead of being a no-op: it
returns a non-null result, increments every alive warrior's
`score[warriorsLeft - 1]`, and rewrites `lastResult` into the warrior and
(here: a warrior with an unshared P-space) into its P-space; `k` such calls
add `k` to the surviving warrior's score, so `endRound` is not idempotent. -/
theorem c10_step_after_round_end (f : SimSt → SimSt) (st : SimSt) (k : Nat)
    (i p : Nat)
    (hterm : st.cycle ≤ 0 ∨ st.warriorsLeft < 2)
    (hi : i < st.numWarriors)
    (halive : (st.warriors i).alive = true)
    (hp : (st.warriors i).pSpaceIndex = p)
    (huniq : ∀ j, j < st.numWarriors → (st.warriors j).pSpaceIndex = p → j = i) :
    (step f st).2.isSome = true ∧
    ((step f st).1.warriors i).score (st.warriorsLeft - 1).toNat =
      (st.warriors i).score (st.warriorsLeft - 1).toNat + 1 ∧
    ((step f st).1.warriors i).lastResult = st.warriorsLeft ∧
    ((step f st).1.pSpaces p).lastResult = st.warriorsLeft ∧
    ((stepIter f k st).warriors i).score (st.warriorsLeft - 1).toNat =
      (st.warriors i).score (st.warriorsLeft - 1).toNat + k := by
  have hstep1 : (step f st).1 = (endRound st).1 := by
    unfold step
    rw [if_pos hterm]
  have hstep2 : (step f st).2 = some (endRound st).2 := by
    unfold step
    rw [if_pos hterm]
  have hwi : (endRound st).1.warriors i =
      endRoundWarrior st.warriorsLeft (st.warriors i) := by
    simp [endRound, hi]
  refine ⟨by rw [hstep2]; rfl, ?_, ?_, ?_, ?_⟩
  · rw [hstep1, hwi]
    simp [endRoundWarrior, halive, updFn]
  · rw [hstep1, hwi]
    simp [endRoundWarrior, halive]
  · have hfold := foldl_endRoundPS_owner st.warriorsLeft st.warriors p i
      (List.range st.numWarriors) st.pSpaces (List.mem_range.mpr hi)
      (List.nodup_range _)
      (fun j hj hpj => huniq j (List.mem_range.mp hj) hpj) hp
    rw [hstep1]
    show ((List.range st.numWarriors).foldl
      (fun acc j => endRoundPS st.warriorsLeft (st.warriors j) acc)
      st.pSpaces p).lastResult = st.warriorsLeft
    rw [hfold]
    simp [halive]
  · exact stepIter_score f k st i hterm hi halive

/-- An alive warrior for the C10 witness. -/
def wAliveW : SimWarrior :=
  ⟨[4], 1, true, fun _ => 0, 7, 0⟩

/-- A dead warrior for the C10 witness. -/
def wDeadW : SimWarrior :=
  ⟨[], 0, false, fun _ => 0, 7, 1⟩

/-- A terminal simulator state (one warrior left) for the C10 witness. -/
def stEnd : SimSt :=
  ⟨fun j => if j = 0 then wAliveW else wDeadW, 2, fun _ => PSpace.new 4 8, 1, 5⟩

/-- Witness for C10: three extra `step()` calls on a finished round add 3 to
the surviving warrior's `score[0]`. -/
theorem c10_step_after_round_end_witness :
    (step id stEnd).2.isSome = true ∧
    ((step id stEnd).1.warriors 0).score (stEnd.warriorsLeft - 1).toNat =
      (stEnd.warriors 0).score (stEnd.warriorsLeft - 1).toNat + 1 ∧
    ((step id stEnd).1.warriors 0).lastResult = stEnd.warriorsLeft ∧
    ((step id stEnd).1.pSpaces 0).lastResult = stEnd.warriorsLeft ∧
    ((stepIter id 3 stEnd).warriors 0).score (stEnd.warriorsLeft - 1).toNat =
      (stEnd.warriors 0).score (stEnd.warriorsLeft - 1).toNat + 3 :=
  c10_step_after_round_end id stEnd 3 0 0 (Or.inr (by decide)) (by decide)
    (by decide) (by decide) (by decide)

end PMarsTS
